import Mathlib

/-!
Verification of the reconciliation core of a declarative repository
provider against its specification.

The repository ships the schema types and the controller's test file
(`internal/controller/repository/repository_test.go`); the controller body
itself is not part of the sources, so the reconciliation pipeline
(Normalizer, Identity Matcher, Attribute Differ, Diff Aggregator and the
Observe entry point) is modelled from the specification, and the test
file's fixtures and expected observations are embedded verbatim as the
authoritative concrete behavior.

Conventions: Go pointer fields become `Option`, Go slices become `List`,
Go `int64` becomes `Int`.  Field and definition names follow the Go
source where Lean's grammar allows it.
-/

namespace v1alpha1

/-- Desired-side user permission entry (Go `v1alpha1.RepositoryUser`). -/
structure RepositoryUser where
  user : String
  role : String
deriving DecidableEq, Repr

/-- Desired-side team permission entry (Go `v1alpha1.RepositoryTeam`). -/
structure RepositoryTeam where
  team : String
  role : String
deriving DecidableEq, Repr

/-- Desired-side permissions block (Go `v1alpha1.RepositoryPermissions`). -/
structure RepositoryPermissions where
  users : List RepositoryUser := []
  teams : List RepositoryTeam := []
deriving DecidableEq, Repr

/-- Desired-side webhook (Go `v1alpha1.RepositoryWebhook`). -/
structure RepositoryWebhook where
  url : String
  contentType : String
  events : List String
  insecureSsl : Option Bool
  active : Option Bool
deriving DecidableEq, Repr

/-- Desired-side required status check (Go `v1alpha1.RequiredStatusCheck`). -/
structure RequiredStatusCheck where
  context : String
deriving DecidableEq, Repr

/-- Desired-side required status checks bundle (Go `v1alpha1.RequiredStatusChecks`). -/
structure RequiredStatusChecks where
  strict : Bool
  checks : List RequiredStatusCheck
deriving DecidableEq, Repr

/-- Desired-side branch restrictions (Go `v1alpha1.BranchProtectionRestrictions`). -/
structure BranchProtectionRestrictions where
  users : List String
  teams : List String
  apps : List String
deriving DecidableEq, Repr

/-- Desired-side bypass allowances (Go `v1alpha1.BypassPullRequestAllowancesRequest`). -/
structure BypassPullRequestAllowancesRequest where
  users : List String
  teams : List String
  apps : List String
deriving DecidableEq, Repr

/-- Desired-side dismissal restrictions (Go `v1alpha1.DismissalRestrictionsRequest`,
whose Go fields are pointers to slices). -/
structure DismissalRestrictionsRequest where
  users : Option (List String)
  teams : Option (List String)
  apps : Option (List String)
deriving DecidableEq, Repr

/-- Desired-side review enforcement (Go `v1alpha1.RequiredPullRequestReviews`). -/
structure RequiredPullRequestReviews where
  bypassPullRequestAllowances : Option BypassPullRequestAllowancesRequest
  dismissalRestrictions : Option DismissalRestrictionsRequest
deriving DecidableEq, Repr

/-- Desired-side branch protection rule (Go `v1alpha1.BranchProtectionRule`). -/
structure BranchProtectionRule where
  branch : String
  enforceAdmins : Bool
  requireLinearHistory : Option Bool
  allowForcePushes : Option Bool
  allowDeletions : Option Bool
  requiredConversationResolution : Option Bool
  lockBranch : Option Bool
  allowForkSyncing : Option Bool
  requireSignedCommits : Option Bool
  requiredStatusChecks : Option RequiredStatusChecks
  branchProtectionRestrictions : Option BranchProtectionRestrictions
  requiredPullRequestReviews : Option RequiredPullRequestReviews
deriving DecidableEq, Repr

/-- Desired-side ruleset ref-name condition (Go `v1alpha1.RulesetRefName`). -/
structure RulesetRefName where
  includes : List String
  excludes : List String
deriving DecidableEq, Repr

/-- Desired-side ruleset conditions (Go `v1alpha1.RulesetConditions`). -/
structure RulesetConditions where
  refName : Option RulesetRefName
deriving DecidableEq, Repr

/-- Desired-side ruleset bypass actor (Go `v1alpha1.RulesetByPassActors`). -/
structure RulesetByPassActors where
  actorId : Option Int
  actorType : Option String
  bypassMode : Option String
deriving DecidableEq, Repr

/-- Desired-side named boolean rule toggles (Go `v1alpha1.Rules`). -/
structure Rules where
  creation : Option Bool
  deletion : Option Bool
  update : Option Bool
  requiredLinearHistory : Option Bool
  requiredSignatures : Option Bool
  nonFastForward : Option Bool
deriving DecidableEq, Repr

/-- Desired-side repository ruleset (Go `v1alpha1.RepositoryRuleset`). -/
structure RepositoryRuleset where
  name : String
  target : Option String
  enforcement : Option String
  conditions : Option RulesetConditions
  bypassActors : List RulesetByPassActors
  rules : Option Rules
deriving DecidableEq, Repr

/-- Modelled from the spec: the desired-side top-level parameters
(Go `v1alpha1.RepositoryParameters`, whose declaration file is not among
the sources).  Spec section 3 lists the scalar fields (description,
archived flag, visibility flag, template flag) and the five sub-resource
collections; the scalar fields are optional pointer-like tri-state
fields.  `priv` renders the Go field `Private` (a Lean keyword). -/
structure RepositoryParameters where
  description : Option String := none
  archived : Option Bool := none
  priv : Option Bool := none
  isTemplate : Option Bool := none
  permissions : RepositoryPermissions := {}
  webhooks : List RepositoryWebhook := []
  branchProtectionRules : List BranchProtectionRule := []
  repositoryRules : List RepositoryRuleset := []
deriving DecidableEq, Repr

/-- Desired-side spec wrapper (Go `v1alpha1.RepositorySpec`). -/
structure RepositorySpec where
  forProvider : RepositoryParameters := {}
deriving DecidableEq, Repr

/-- Desired-side managed resource (Go `v1alpha1.Repository`); `externalName`
renders the crossplane external-name annotation set via `meta.SetExternalName`. -/
structure Repository where
  spec : RepositorySpec := {}
  externalName : String := ""
deriving DecidableEq, Repr

end v1alpha1

namespace github

/-- Observed-side repository (Go `github.Repository`, pointer fields).
`priv` renders the Go field `Private` (a Lean keyword). -/
structure Repository where
  name : Option String := none
  description : Option String := none
  archived : Option Bool := none
  priv : Option Bool := none
  isTemplate : Option Bool := none
  fork : Option Bool := none
deriving DecidableEq, Repr

/-- Observed-side webhook configuration (Go `github.HookConfig`). -/
structure HookConfig where
  url : Option String := none
  contentType : Option String := none
  insecureSSL : Option String := none
deriving DecidableEq, Repr

/-- Observed-side webhook (Go `github.Hook`). -/
structure Hook where
  config : Option HookConfig := none
  events : List String := []
  active : Option Bool := none
deriving DecidableEq, Repr

/-- Observed-side required status check (Go `github.RequiredStatusCheck`). -/
structure RequiredStatusCheck where
  context : String
deriving DecidableEq, Repr

/-- Observed-side required status checks (Go `github.RequiredStatusChecks`,
whose `Checks` field is a pointer to a slice of pointers). -/
structure RequiredStatusChecks where
  strict : Bool
  checks : Option (List RequiredStatusCheck)
deriving DecidableEq, Repr

/-- Observed-side admin enforcement (Go `github.AdminEnforcement`). -/
structure AdminEnforcement where
  enabled : Bool
deriving DecidableEq, Repr

/-- Observed-side toggle wrapper with a plain boolean (Go
`github.RequireLinearHistory`, `github.AllowForcePushes`,
`github.AllowDeletions`, `github.RequiredConversationResolution`). -/
structure EnabledToggle where
  enabled : Bool
deriving DecidableEq, Repr

/-- Observed-side toggle wrapper with a pointer boolean (Go
`github.LockBranch`, `github.AllowForkSyncing`,
`github.SignaturesProtectedBranch`). -/
structure EnabledOptToggle where
  enabled : Option Bool
deriving DecidableEq, Repr

/-- Observed-side user (Go `github.User`); `permissions` renders the Go
`map[string]bool` as an association list. -/
structure User where
  login : Option String := none
  permissions : List (String × Bool) := []
deriving DecidableEq, Repr

/-- Observed-side team (Go `github.Team`). -/
structure Team where
  slug : Option String := none
  permission : Option String := none
deriving DecidableEq, Repr

/-- Observed-side app (Go `github.App`). -/
structure App where
  slug : Option String := none
deriving DecidableEq, Repr

/-- Observed-side branch restrictions (Go `github.BranchRestrictions`). -/
structure BranchRestrictions where
  users : List User
  teams : List Team
  apps : List App
deriving DecidableEq, Repr

/-- Observed-side bypass allowances (Go `github.BypassPullRequestAllowances`). -/
structure BypassPullRequestAllowances where
  users : List User
  teams : List Team
  apps : List App
deriving DecidableEq, Repr

/-- Observed-side dismissal restrictions (Go `github.DismissalRestrictions`). -/
structure DismissalRestrictions where
  users : List User
  teams : List Team
  apps : List App
deriving DecidableEq, Repr

/-- Observed-side review enforcement (Go `github.PullRequestReviewsEnforcement`). -/
structure PullRequestReviewsEnforcement where
  bypassPullRequestAllowances : Option BypassPullRequestAllowances := none
  dismissalRestrictions : Option DismissalRestrictions := none
deriving DecidableEq, Repr

/-- Observed-side branch protection (Go `github.Protection`). -/
structure Protection where
  requiredStatusChecks : Option RequiredStatusChecks := none
  enforceAdmins : Option AdminEnforcement := none
  requireLinearHistory : Option EnabledToggle := none
  allowForcePushes : Option EnabledToggle := none
  allowDeletions : Option EnabledToggle := none
  requiredConversationResolution : Option EnabledToggle := none
  lockBranch : Option EnabledOptToggle := none
  allowForkSyncing : Option EnabledOptToggle := none
  requiredSignatures : Option EnabledOptToggle := none
  restrictions : Option BranchRestrictions := none
  requiredPullRequestReviews : Option PullRequestReviewsEnforcement := none
deriving DecidableEq, Repr

/-- Observed-side branch (Go `github.Branch`). -/
structure Branch where
  name : Option String := none
  isProtected : Option Bool := none
deriving DecidableEq, Repr

/-- Observed-side ruleset ref-name conditions (Go
`github.RulesetRefConditionParameters`). -/
structure RulesetRefConditionParameters where
  includes : List String
  excludes : List String
deriving DecidableEq, Repr

/-- Observed-side ruleset conditions (Go `github.RulesetConditions`). -/
structure RulesetConditions where
  refName : Option RulesetRefConditionParameters := none
deriving DecidableEq, Repr

/-- Observed-side bypass actor (Go `github.BypassActor`). -/
structure BypassActor where
  actorID : Option Int := none
  actorType : Option String := none
  bypassMode : Option String := none
deriving DecidableEq, Repr

/-- Observed-side typed ruleset rule entry (Go `github.RepositoryRule`);
the remote represents each named rule toggle as one list entry whose
`type` is the rule's type name. -/
structure RepositoryRule where
  type : String
deriving DecidableEq, Repr

/-- Observed-side ruleset (Go `github.Ruleset`). -/
structure Ruleset where
  id : Option Int := none
  name : String
  target : Option String := none
  enforcement : String
  conditions : Option RulesetConditions := none
  bypassActors : List BypassActor := []
  rules : List RepositoryRule := []
deriving DecidableEq, Repr

end github

/-! ## Test fixtures (embedded from `repository_test.go`) -/

def repo : String := "test-repo"

def description : String := "desc"

def archived : Bool := false

/-- Go test variable `private` (a Lean keyword). -/
def privateVal : Bool := true

def isTemplate : Bool := false

def user1 : String := "test-user-1"

def user1Role : String := "admin"

/-- Note: the test file assigns `user2` the same login as `user1`. -/
def user2 : String := "test-user-1"

def user2Role : String := "pull"

def team1 : String := "test-team-1"

def team1Role : String := "admin"

def team2 : String := "test-team-2"

def team2Role : String := "pull"

def githubApp1 : String := "my-awesome-app"

def webhook1url : String := "https://example.org/webhook"

def webhook1active : Bool := true

def webhook1InsecureSsl : Bool := false

def webhook1InsecureSslStr : String := "0"

def webhook1ContentType : String := "json"

def webhook1event1 : String := "push"

def webhook1event2 : String := "workflow_job"

def bpr1branch : String := "main"

def bpr1enforceAdmins : Bool := true

def bpr1requireLinearHistory : Bool := true

def bpr1allowForcePushes : Bool := false

def bpr1allowDeletions : Bool := false

def bpr1requiredConversationResolution : Bool := true

def bpr1lockBranch : Bool := false

def bpr1allowForkSyncing : Bool := false

def bpr1requireSignedCommits : Bool := false

def bpr1requiredStatusCheck : String := "terraform_validate"

def rr1Id : Int := 123

def rr1name : String := "test-ruleset-1"

def rr1target : String := "branch"

def rr1enforcement : String := "active"

def rr1actorType : String := "Team"

def rr1bypassMode : String := "always"

def rr1rulesCreation : Bool := true

def rr1rulesDeletion : Bool := true

def rr1rulesUpdate : Bool := true

def rr1rulesRequiredLinearHistory : Bool := true

def rr1rulesRequiredSignatures : Bool := true

def rr1rulesNonFastForward : Bool := true

def rr1actorId : Int := 123

def rr1Include : List String := ["include"]

def rr1Exclude : List String := ["exclude"]

/-- Go `strings.ToUpper`, restricted to the mapping on characters that
Lean's `Char.toUpper` performs; kept on the character list so that the
kernel can evaluate it on literals. -/
def toUpperStr (s : String) : String := String.mk (s.data.map Char.toUpper)

/-- Test helper type `repositoryModifier`. -/
def repositoryModifier : Type := v1alpha1.Repository → v1alpha1.Repository

/-- Replaces the role of the team permission entry at a given position,
used to embed the Go statement
`r.Spec.ForProvider.Permissions.Teams[1].Role = team1Role`. -/
def setTeamRoleAt (i : Nat) (role : String) :
    List v1alpha1.RepositoryTeam → List v1alpha1.RepositoryTeam
  | [] => []
  | t :: ts =>
    match i with
    | 0 => { t with role := role } :: ts
    | n + 1 => t :: setTeamRoleAt n role ts

/-- Test fixture modifier `withTeamPermission`. -/
def withTeamPermission : repositoryModifier := fun r =>
  { r with
    spec := { r.spec with
      forProvider := { r.spec.forProvider with
        permissions := { r.spec.forProvider.permissions with
          teams := setTeamRoleAt 1 team1Role r.spec.forProvider.permissions.teams } } } }

/-- Test fixture builder `repository`; the Go variadic modifier list is a
`List repositoryModifier`. -/
def repository (ms : List repositoryModifier) : v1alpha1.Repository :=
  let cr : v1alpha1.Repository :=
    { spec :=
      { forProvider :=
        { permissions :=
          { users :=
            [ { user := toUpperStr user1, role := user1Role },
              { user := toUpperStr user2, role := user2Role } ]
            teams :=
            [ { team := toUpperStr team1, role := team1Role },
              { team := toUpperStr team2, role := team2Role } ] }
          webhooks :=
          [ { url := webhook1url
              contentType := webhook1ContentType
              events := [webhook1event1, webhook1event2]
              insecureSsl := some webhook1InsecureSsl
              active := some webhook1active } ]
          branchProtectionRules :=
          [ { branch := bpr1branch
              enforceAdmins := bpr1enforceAdmins
              requireLinearHistory := some bpr1requireLinearHistory
              allowForcePushes := some bpr1allowForcePushes
              allowDeletions := some bpr1allowDeletions
              requiredConversationResolution := some bpr1requiredConversationResolution
              lockBranch := some bpr1lockBranch
              allowForkSyncing := some bpr1allowForkSyncing
              requireSignedCommits := some bpr1requireSignedCommits
              requiredStatusChecks := some
                { strict := true
                  checks := [ { context := bpr1requiredStatusCheck } ] }
              branchProtectionRestrictions := some
                { users := [toUpperStr user1]
                  teams := [toUpperStr team1]
                  apps := [toUpperStr githubApp1] }
              requiredPullRequestReviews := some
                { bypassPullRequestAllowances := some
                    { users := [toUpperStr user1]
                      teams := [toUpperStr team1]
                      apps := [toUpperStr githubApp1] }
                  dismissalRestrictions := some
                    { users := some [toUpperStr user1]
                      teams := some [toUpperStr team1]
                      apps := some [toUpperStr githubApp1] } } } ]
          repositoryRules :=
          [ { name := rr1name
              target := some rr1target
              enforcement := some rr1enforcement
              conditions := some
                { refName := some { includes := rr1Include, excludes := rr1Exclude } }
              bypassActors :=
              [ { actorId := some rr1actorId
                  actorType := some rr1actorType
                  bypassMode := some rr1bypassMode } ]
              rules := some
                { creation := some rr1rulesCreation
                  deletion := some rr1rulesDeletion
                  update := some rr1rulesUpdate
                  requiredLinearHistory := some rr1rulesRequiredLinearHistory
                  requiredSignatures := some rr1rulesRequiredSignatures
                  nonFastForward := some rr1rulesNonFastForward } } ] } }
      externalName := repo }
  ms.foldl (fun r f => f r) cr

/-- Test fixture `githubRepository`. -/
def githubRepository : github.Repository :=
  { name := some repo
    description := some description
    archived := some archived
    priv := some privateVal
    isTemplate := some isTemplate
    fork := some false }

/-- Test fixture `githubWebhooks`. -/
def githubWebhooks : List github.Hook :=
  [ { config := some
        { url := some webhook1url
          contentType := some webhook1ContentType
          insecureSSL := some webhook1InsecureSslStr }
      events := [webhook1event1, webhook1event2]
      active := some webhook1active } ]

/-- Test fixture `githubProtectedBranch`. -/
def githubProtectedBranch : github.Protection :=
  { requiredStatusChecks := some
      { strict := true
        checks := some [ { context := bpr1requiredStatusCheck } ] }
    enforceAdmins := some { enabled := bpr1enforceAdmins }
    requireLinearHistory := some { enabled := bpr1requireLinearHistory }
    allowForcePushes := some { enabled := bpr1allowForcePushes }
    allowDeletions := some { enabled := bpr1allowDeletions }
    requiredConversationResolution := some { enabled := bpr1requiredConversationResolution }
    lockBranch := some { enabled := some bpr1lockBranch }
    allowForkSyncing := some { enabled := some bpr1allowForkSyncing }
    requiredSignatures := some { enabled := some bpr1requireSignedCommits }
    restrictions := some
      { users := [ { login := some user1 } ]
        teams := [ { slug := some team1 } ]
        apps := [ { slug := some githubApp1 } ] }
    requiredPullRequestReviews := some
      { bypassPullRequestAllowances := some
          { users := [ { login := some user1 } ]
            teams := [ { slug := some team1 } ]
            apps := [ { slug := some githubApp1 } ] }
        dismissalRestrictions := some
          { users := [ { login := some user1 } ]
            teams := [ { slug := some team1 } ]
            apps := [ { slug := some githubApp1 } ] } } }

/-- Test fixture `githubRuleset`. -/
def githubRuleset : List github.Ruleset :=
  [ { id := some rr1Id
      name := rr1name
      target := some rr1target
      enforcement := rr1enforcement
      conditions := some
        { refName := some { includes := rr1Include, excludes := rr1Exclude } }
      bypassActors :=
      [ { actorID := some rr1actorId
          actorType := some rr1actorType
          bypassMode := some rr1bypassMode } ]
      rules :=
      [ { type := "creation" },
        { type := "deletion" },
        { type := "update" },
        { type := "required_linear_history" },
        { type := "required_signatures" },
        { type := "non_fast_forward" } ] } ]

/-- Test fixture `githubCollaborators`. -/
def githubCollaborators : List github.User :=
  [ { login := some user1, permissions := [(user1Role, true)] },
    { login := some user2, permissions := [(user2Role, true)] } ]

/-- Test fixture `githubTeams`. -/
def githubTeams : List github.Team :=
  [ { slug := some team1, permission := some team1Role },
    { slug := some team2, permission := some team2Role } ]

/-- Test fixture `githubBranches`. -/
def githubBranches : List github.Branch :=
  [ { name := some bpr1branch, isProtected := some true } ]

/-! ## Normalized comparison-ready forms

The reconciliation core below is modelled from the specification
(sections 4.1 to 4.4 and 6), since the controller body is not part of
the sources; its concrete behavior is pinned by the embedded test
fixtures and expected observations. -/

/-- Modelled from the spec: case-insensitive canonicalization of an
identity field (spec 4.1); kept on the character list so the kernel can
evaluate it on literals. -/
def lowerKey (s : String) : String := String.mk (s.data.map Char.toLower)

/-- Modelled from the spec: the remote encodes the webhook
insecure-transport flag as the strings "0" and "1"; the Normalizer
collapses these equivalent representations into the desired side's
boolean shape (spec 4.1, "collapsing of equivalent empty/heterogeneous
representations"). -/
def parseInsecureSsl (s : String) : Option Bool :=
  if s = "0" then some false
  else if s = "1" then some true
  else none

/-- Normalized permission entry (user or team), keyed by normalized
login/slug. -/
structure NormPerm where
  key : String
  role : String
deriving DecidableEq, Repr

/-- Normalized webhook, keyed by normalized target URL. -/
structure NormWebhook where
  url : String
  contentType : Option String
  events : List String
  insecureSsl : Option Bool
  active : Option Bool
deriving DecidableEq, Repr

/-- Normalized required-status-checks bundle. -/
structure NormStatusChecks where
  strict : Bool
  contexts : List String
deriving DecidableEq, Repr

/-- Normalized set triple of user/team/app identity keys. -/
structure NormTriple where
  users : List String
  teams : List String
  apps : List String
deriving DecidableEq, Repr

/-- Normalized dismissal restrictions (each set itself optional on the
desired side). -/
structure NormDismissal where
  users : Option (List String)
  teams : Option (List String)
  apps : Option (List String)
deriving DecidableEq, Repr

/-- Normalized pull-request review enforcement. -/
structure NormReviews where
  bypass : Option NormTriple
  dismissal : Option NormDismissal
deriving DecidableEq, Repr

/-- Normalized branch protection rule, keyed by normalized branch name. -/
structure NormBPR where
  branch : String
  enforceAdmins : Bool
  requireLinearHistory : Option Bool
  allowForcePushes : Option Bool
  allowDeletions : Option Bool
  requiredConversationResolution : Option Bool
  lockBranch : Option Bool
  allowForkSyncing : Option Bool
  requireSignedCommits : Option Bool
  requiredStatusChecks : Option NormStatusChecks
  restrictions : Option NormTriple
  reviews : Option NormReviews
deriving DecidableEq, Repr

/-- Normalized ruleset ref-name conditions (include/exclude glob sets). -/
structure NormConditions where
  includes : List String
  excludes : List String
deriving DecidableEq, Repr

/-- Normalized ruleset bypass actor. -/
structure NormActor where
  actorId : Option Int
  actorType : Option String
  bypassMode : Option String
deriving DecidableEq, Repr

/-- Normalized named boolean rule toggles of a ruleset. -/
structure NormRules where
  creation : Option Bool
  deletion : Option Bool
  update : Option Bool
  requiredLinearHistory : Option Bool
  requiredSignatures : Option Bool
  nonFastForward : Option Bool
deriving DecidableEq, Repr

/-- Normalized ruleset, keyed by normalized name. -/
structure NormRuleset where
  name : String
  target : Option String
  enforcement : Option String
  conditions : Option NormConditions
  bypassActors : List NormActor
  rules : Option NormRules
deriving DecidableEq, Repr

/-- Normalized resource: top-level scalar fields plus the five
sub-resource collections (spec 4.4). -/
structure NormRes where
  description : Option String
  archived : Option Bool
  priv : Option Bool
  isTemplate : Option Bool
  users : List NormPerm
  teams : List NormPerm
  webhooks : List NormWebhook
  bprs : List NormBPR
  rulesets : List NormRuleset
deriving DecidableEq, Repr

/-- Modelled from the spec: translation table from the remote's
heterogeneous typed rule-list representation to the desired side's named
boolean rule toggles (spec 4.1 and 9); a toggle is true exactly when the
remote list holds an entry of the corresponding type name. -/
def rulesFromList (rs : List github.RepositoryRule) : NormRules :=
  { creation := some (rs.any (fun r => r.type == "creation"))
    deletion := some (rs.any (fun r => r.type == "deletion"))
    update := some (rs.any (fun r => r.type == "update"))
    requiredLinearHistory := some (rs.any (fun r => r.type == "required_linear_history"))
    requiredSignatures := some (rs.any (fun r => r.type == "required_signatures"))
    nonFastForward := some (rs.any (fun r => r.type == "non_fast_forward")) }

/-! ### Normalizer, desired side -/

/-- Modelled from the spec: normalization of a desired user entry. -/
def normUserD (u : v1alpha1.RepositoryUser) : NormPerm :=
  { key := lowerKey u.user, role := u.role }

/-- Modelled from the spec: normalization of a desired team entry. -/
def normTeamD (t : v1alpha1.RepositoryTeam) : NormPerm :=
  { key := lowerKey t.team, role := t.role }

/-- Modelled from the spec: normalization of a desired webhook. -/
def normWebhookD (w : v1alpha1.RepositoryWebhook) : NormWebhook :=
  { url := lowerKey w.url
    contentType := some w.contentType
    events := w.events
    insecureSsl := w.insecureSsl
    active := w.active }

/-- Modelled from the spec: normalization of a desired branch protection
rule; identity fields inside restriction and allowance sets are user
logins, team slugs and app slugs and are case-folded (spec 4.1). -/
def normBprD (b : v1alpha1.BranchProtectionRule) : NormBPR :=
  { branch := lowerKey b.branch
    enforceAdmins := b.enforceAdmins
    requireLinearHistory := b.requireLinearHistory
    allowForcePushes := b.allowForcePushes
    allowDeletions := b.allowDeletions
    requiredConversationResolution := b.requiredConversationResolution
    lockBranch := b.lockBranch
    allowForkSyncing := b.allowForkSyncing
    requireSignedCommits := b.requireSignedCommits
    requiredStatusChecks := b.requiredStatusChecks.map (fun s =>
      { strict := s.strict, contexts := s.checks.map (fun c => c.context) })
    restrictions := b.branchProtectionRestrictions.map (fun r =>
      { users := r.users.map lowerKey
        teams := r.teams.map lowerKey
        apps := r.apps.map lowerKey })
    reviews := b.requiredPullRequestReviews.map (fun rv =>
      { bypass := rv.bypassPullRequestAllowances.map (fun a =>
          { users := a.users.map lowerKey
            teams := a.teams.map lowerKey
            apps := a.apps.map lowerKey })
        dismissal := rv.dismissalRestrictions.map (fun d =>
          { users := d.users.map (fun l => l.map lowerKey)
            teams := d.teams.map (fun l => l.map lowerKey)
            apps := d.apps.map (fun l => l.map lowerKey) }) }) }

/-- Modelled from the spec: normalization of a desired ruleset. -/
def normRulesetD (r : v1alpha1.RepositoryRuleset) : NormRuleset :=
  { name := lowerKey r.name
    target := r.target
    enforcement := r.enforcement
    conditions := (r.conditions.bind (fun c => c.refName)).map (fun rn =>
      { includes := rn.includes, excludes := rn.excludes })
    bypassActors := r.bypassActors.map (fun a =>
      { actorId := a.actorId, actorType := a.actorType, bypassMode := a.bypassMode })
    rules := r.rules.map (fun rl =>
      { creation := rl.creation
        deletion := rl.deletion
        update := rl.update
        requiredLinearHistory := rl.requiredLinearHistory
        requiredSignatures := rl.requiredSignatures
        nonFastForward := rl.nonFastForward }) }

/-- Modelled from the spec: normalization of the whole desired resource
(the desired tree of spec section 6). -/
def normalizeDesired (cr : v1alpha1.Repository) : NormRes :=
  let p := cr.spec.forProvider
  { description := p.description
    archived := p.archived
    priv := p.priv
    isTemplate := p.isTemplate
    users := p.permissions.users.map normUserD
    teams := p.permissions.teams.map normTeamD
    webhooks := p.webhooks.map normWebhookD
    bprs := p.branchProtectionRules.map normBprD
    rulesets := p.repositoryRules.map normRulesetD }

/-! ### Normalizer, observed side -/

/-- Modelled from the spec: the role of an observed collaborator is
recovered from the remote's permission map by scanning the fixed ordered
role set from highest to lowest (spec section 3: roles form a fixed
ordered set pull < triage < push < maintain < admin). -/
def roleFromPermissions (ps : List (String × Bool)) : String :=
  let has := fun (r : String) =>
    ps.any (fun kv => kv.1 == r && kv.2)
  if has ("admin") = true then "admin"
  else if has ("maintain") = true then "maintain"
  else if has ("push") = true then "push"
  else if has ("triage") = true then "triage"
  else if has ("pull") = true then "pull"
  else ""

/-- Modelled from the spec: normalization of an observed collaborator. -/
def normUserO (u : github.User) : NormPerm :=
  { key := lowerKey (u.login.getD "")
    role := roleFromPermissions u.permissions }

/-- Modelled from the spec: normalization of an observed team. -/
def normTeamO (t : github.Team) : NormPerm :=
  { key := lowerKey (t.slug.getD "")
    role := t.permission.getD "" }

/-- Modelled from the spec: normalization of an observed webhook; the
string-encoded insecure-transport flag is collapsed into the boolean
shape. -/
def normHookO (h : github.Hook) : NormWebhook :=
  { url := lowerKey ((h.config.bind (fun c => c.url)).getD "")
    contentType := h.config.bind (fun c => c.contentType)
    events := h.events
    insecureSsl := (h.config.bind (fun c => c.insecureSSL)).bind parseInsecureSsl
    active := h.active }

/-- Modelled from the spec: normalization of an observed branch
protection object fetched for a listed branch. -/
def normBprO (branch : String) (p : github.Protection) : NormBPR :=
  { branch := lowerKey branch
    enforceAdmins := (p.enforceAdmins.map (fun a => a.enabled)).getD false
    requireLinearHistory := p.requireLinearHistory.map (fun t => t.enabled)
    allowForcePushes := p.allowForcePushes.map (fun t => t.enabled)
    allowDeletions := p.allowDeletions.map (fun t => t.enabled)
    requiredConversationResolution := p.requiredConversationResolution.map (fun t => t.enabled)
    lockBranch := p.lockBranch.bind (fun t => t.enabled)
    allowForkSyncing := p.allowForkSyncing.bind (fun t => t.enabled)
    requireSignedCommits := p.requiredSignatures.bind (fun t => t.enabled)
    requiredStatusChecks := p.requiredStatusChecks.map (fun s =>
      { strict := s.strict
        contexts := (s.checks.getD []).map (fun c => c.context) })
    restrictions := p.restrictions.map (fun r =>
      { users := r.users.map (fun u => lowerKey (u.login.getD ""))
        teams := r.teams.map (fun t => lowerKey (t.slug.getD ""))
        apps := r.apps.map (fun a => lowerKey (a.slug.getD "")) })
    reviews := p.requiredPullRequestReviews.map (fun rv =>
      { bypass := rv.bypassPullRequestAllowances.map (fun a =>
          { users := a.users.map (fun u => lowerKey (u.login.getD ""))
            teams := a.teams.map (fun t => lowerKey (t.slug.getD ""))
            apps := a.apps.map (fun ap => lowerKey (ap.slug.getD "")) })
        dismissal := rv.dismissalRestrictions.map (fun d =>
          { users := some (d.users.map (fun u => lowerKey (u.login.getD "")))
            teams := some (d.teams.map (fun t => lowerKey (t.slug.getD "")))
            apps := some (d.apps.map (fun ap => lowerKey (ap.slug.getD ""))) }) }) }

/-- Modelled from the spec: normalization of an observed ruleset; the
typed rule-entry list is translated into the named boolean shape. -/
def normRulesetO (r : github.Ruleset) : NormRuleset :=
  { name := lowerKey r.name
    target := r.target
    enforcement := some r.enforcement
    conditions := (r.conditions.bind (fun c => c.refName)).map (fun rn =>
      { includes := rn.includes, excludes := rn.excludes })
    bypassActors := r.bypassActors.map (fun a =>
      { actorId := a.actorID, actorType := a.actorType, bypassMode := a.bypassMode })
    rules := some (rulesFromList r.rules) }

/-- Modelled from the spec: the observed tree is assembled from the
independent remote read operations (spec section 6); branch protection
objects arrive paired with the branch they were fetched for. -/
def normalizeObserved (r : github.Repository) (collaborators : List github.User)
    (teams : List github.Team) (hooks : List github.Hook)
    (branchProtections : List (String × github.Protection))
    (rulesets : List github.Ruleset) : NormRes :=
  { description := r.description
    archived := r.archived
    priv := r.priv
    isTemplate := r.isTemplate
    users := collaborators.map normUserO
    teams := teams.map normTeamO
    webhooks := hooks.map normHookO
    bprs := branchProtections.map (fun bp => normBprO bp.1 bp.2)
    rulesets := rulesets.map normRulesetO }

/-! ### Identity Matcher (spec 4.2) -/

/-- Inserts a key/value pair into an association map, overwriting the
entry with the same key if one exists (the Go map-build idiom: a later
entry with the same key wins). -/
def upsert (k : String) (v : α) : List (String × α) → List (String × α)
  | [] => [(k, v)]
  | (k2, v2) :: m => if k2 = k then (k2, v) :: m else (k2, v2) :: upsert k v m

/-- Modelled from the spec: a keyed collection as an association map from
the normalized identity key, built by inserting the entries in input
order. -/
def toMap (key : α → String) (xs : List α) : List (String × α) :=
  xs.foldl (fun m x => upsert (key x) x m) []

/-- Association map lookup. -/
def lookupA (k : String) : List (String × α) → Option α
  | [] => none
  | (k2, v) :: m => if k2 = k then some v else lookupA k m

/-- Modelled from the spec: the Identity Matcher's three-way partition of
two keyed collections into matched pairs, desired-only (to create) and
observed-only (to delete) (spec 4.2). -/
def matchBuckets (dm om : List (String × α)) :
    List (α × α) × List α × List α :=
  ( dm.filterMap (fun kv => (lookupA kv.1 om).map (fun o => (kv.2, o)))
  , (dm.filter (fun kv => (lookupA kv.1 om).isNone)).map (fun kv => kv.2)
  , (om.filter (fun kv => (lookupA kv.1 dm).isNone)).map (fun kv => kv.2) )

/-! ### Attribute Differ (spec 4.3) -/

/-- Modelled from the spec: three-state comparison of an optional
attribute; a desired-side unset field is not managed and is equivalent
to any observed value, while an explicit desired value requires the
observed side to hold exactly that value (spec 4.3). -/
def cmpOpt [DecidableEq α] (d o : Option α) : Bool :=
  match d with
  | none => true
  | some x =>
    match o with
    | none => false
    | some y => decide (x = y)

/-- Modelled from the spec: three-state comparison of an optional nested
object with a custom comparison for the explicit/explicit case. -/
def cmpOptWith (f : α → α → Bool) (d o : Option α) : Bool :=
  match d with
  | none => true
  | some x =>
    match o with
    | none => false
    | some y => f x y

/-- Boolean membership in a list of strings. -/
def memB (a : String) (xs : List String) : Bool :=
  xs.any (fun b => decide (b = a))

/-- Modelled from the spec: comparison of ordered-but-semantically-
unordered sub-collections as sets (spec 4.3). -/
def setEq (xs ys : List String) : Bool :=
  xs.all (fun a => memB a ys) && ys.all (fun a => memB a xs)

/-- Attribute comparison of a matched permission pair (the identity key
already matched; the compared attribute is the role). -/
def eqvPerm (d o : NormPerm) : Bool := decide (d.role = o.role)

/-- Attribute comparison of a matched webhook pair. -/
def eqvWebhook (d o : NormWebhook) : Bool :=
  cmpOpt d.contentType o.contentType
  && setEq d.events o.events
  && cmpOpt d.insecureSsl o.insecureSsl
  && cmpOpt d.active o.active

/-- Comparison of required-status-checks bundles; check contexts are
compared as sets. -/
def eqvStatusChecks (d o : NormStatusChecks) : Bool :=
  decide (d.strict = o.strict) && setEq d.contexts o.contexts

/-- Comparison of user/team/app identity-key set triples. -/
def eqvTriple (d o : NormTriple) : Bool :=
  setEq d.users o.users && setEq d.teams o.teams && setEq d.apps o.apps

/-- Comparison of dismissal restrictions; each optional set follows the
three-state rule and explicit sets are compared as sets. -/
def eqvDismissal (d o : NormDismissal) : Bool :=
  cmpOptWith setEq d.users o.users
  && cmpOptWith setEq d.teams o.teams
  && cmpOptWith setEq d.apps o.apps

/-- Comparison of pull-request review enforcement objects. -/
def eqvReviews (d o : NormReviews) : Bool :=
  cmpOptWith eqvTriple d.bypass o.bypass
  && cmpOptWith eqvDismissal d.dismissal o.dismissal

/-- Attribute comparison of a matched branch protection rule pair. -/
def eqvBPR (d o : NormBPR) : Bool :=
  decide (d.enforceAdmins = o.enforceAdmins)
  && cmpOpt d.requireLinearHistory o.requireLinearHistory
  && cmpOpt d.allowForcePushes o.allowForcePushes
  && cmpOpt d.allowDeletions o.allowDeletions
  && cmpOpt d.requiredConversationResolution o.requiredConversationResolution
  && cmpOpt d.lockBranch o.lockBranch
  && cmpOpt d.allowForkSyncing o.allowForkSyncing
  && cmpOpt d.requireSignedCommits o.requireSignedCommits
  && cmpOptWith eqvStatusChecks d.requiredStatusChecks o.requiredStatusChecks
  && cmpOptWith eqvTriple d.restrictions o.restrictions
  && cmpOptWith eqvReviews d.reviews o.reviews

/-- Comparison of single ruleset bypass actors. -/
def eqvActor (d o : NormActor) : Bool :=
  cmpOpt d.actorId o.actorId
  && cmpOpt d.actorType o.actorType
  && cmpOpt d.bypassMode o.bypassMode

/-- Comparison of the ordered bypass-actor lists (spec section 3 keeps
bypass actors an ordered list). -/
def eqvActors : List NormActor → List NormActor → Bool
  | [], [] => true
  | d :: ds, o :: os => eqvActor d o && eqvActors ds os
  | _, _ => false

/-- Comparison of ruleset ref-name conditions; include/exclude glob
lists are compared as sets. -/
def eqvConditions (d o : NormConditions) : Bool :=
  setEq d.includes o.includes && setEq d.excludes o.excludes

/-- Comparison of the named boolean rule toggles. -/
def eqvRules (d o : NormRules) : Bool :=
  cmpOpt d.creation o.creation
  && cmpOpt d.deletion o.deletion
  && cmpOpt d.update o.update
  && cmpOpt d.requiredLinearHistory o.requiredLinearHistory
  && cmpOpt d.requiredSignatures o.requiredSignatures
  && cmpOpt d.nonFastForward o.nonFastForward

/-- Attribute comparison of a matched ruleset pair; the remote-assigned
numeric id is not part of the desired schema and is never compared. -/
def eqvRuleset (d o : NormRuleset) : Bool :=
  cmpOpt d.target o.target
  && cmpOpt d.enforcement o.enforcement
  && cmpOptWith eqvConditions d.conditions o.conditions
  && eqvActors d.bypassActors o.bypassActors
  && cmpOptWith eqvRules d.rules o.rules

/-! ### Diff Aggregator (spec 4.4) -/

/-- Modelled from the spec: a keyed sub-resource collection is up to date
when the Identity Matcher produces no creates and no deletes and the
Attribute Differ reports every matched pair equivalent. -/
def collectionUpToDate (key : α → String) (eqv : α → α → Bool)
    (ds os : List α) : Bool :=
  let b := matchBuckets (toMap key ds) (toMap key os)
  b.2.1.isEmpty && b.2.2.isEmpty && b.1.all (fun p => eqv p.1 p.2)

/-- Comparison of the top-level scalar fields; each desired scalar is a
tri-state optional field. -/
def eqvScalars (d o : NormRes) : Bool :=
  cmpOpt d.description o.description
  && cmpOpt d.archived o.archived
  && cmpOpt d.priv o.priv
  && cmpOpt d.isTemplate o.isTemplate

/-- Modelled from the spec: the Diff Aggregator's boolean verdict, folding
the top-level scalar comparison and the five sub-resource categories in
the fixed category order (spec 4.4). -/
def aggregateB (d o : NormRes) : Bool :=
  eqvScalars d o
  && collectionUpToDate NormPerm.key eqvPerm d.users o.users
  && collectionUpToDate NormPerm.key eqvPerm d.teams o.teams
  && collectionUpToDate NormWebhook.url eqvWebhook d.webhooks o.webhooks
  && collectionUpToDate NormBPR.branch eqvBPR d.bprs o.bprs
  && collectionUpToDate NormRuleset.name eqvRuleset d.rulesets o.rulesets

/-- The aggregator's verdict (spec 4.4). -/
inductive Verdict where
  | UpToDate
  | NotUpToDate
deriving DecidableEq, Repr

/-- Modelled from the spec: `aggregate(desired, observed)` (spec 4.4). -/
def aggregate (d o : NormRes) : Verdict :=
  if aggregateB d o then Verdict.UpToDate else Verdict.NotUpToDate

/-! ### Observe (spec sections 6 and 7, `TestObserve`) -/

/-- Outcome of the top-level get-resource fetch: the resource, a NotFound
verdict, or a fetch error (spec section 7 taxonomy). -/
inductive GetRepoResult where
  | found (r : github.Repository)
  | notFound
  | failed (e : String)
deriving DecidableEq, Repr

/-- The remote read interface the Observe step consumes, as mocked by the
test file's `fake.MockRepositoriesClient`. -/
structure Client where
  getRepository : GetRepoResult
  listCollaborators : List github.User
  listTeams : List github.Team
  listHooks : List github.Hook
  listBranches : List github.Branch
  getBranchProtection : String → Option github.Protection
  getAllRulesets : List github.Ruleset

/-- The observation returned to the control loop
(`managed.ExternalObservation`). -/
structure ExternalObservation where
  resourceExists : Bool
  resourceUpToDate : Bool
deriving DecidableEq, Repr

/-- Result of one Observe invocation: the observation, the surfaced error
if any, and the log of branches a per-branch protection fetch was issued
for. -/
structure ObserveResult where
  obs : ExternalObservation
  err : Option String
  protectionCalls : List String
deriving DecidableEq, Repr

/-- Modelled from the spec: the Observe step.  The top-level get runs
first; NotFound there is a does-not-exist verdict, not an error, and
skips every sub-resource fetch and all diffing (spec sections 6, 7 and
8).  Otherwise the observed snapshot is assembled from the sub-resource
reads, with a per-branch protection get issued exactly for the branches
returned by list-branches (a NotFound protection yields no entry), both
trees are normalized, and the Diff Aggregator's verdict becomes the
up-to-date flag. -/
def observe (c : Client) (cr : v1alpha1.Repository) : ObserveResult :=
  match c.getRepository with
  | GetRepoResult.notFound =>
    { obs := { resourceExists := false, resourceUpToDate := false }
      err := none
      protectionCalls := [] }
  | GetRepoResult.failed e =>
    { obs := { resourceExists := false, resourceUpToDate := false }
      err := some e
      protectionCalls := [] }
  | GetRepoResult.found r =>
    let branchNames := c.listBranches.filterMap (fun b => b.name)
    let branchProtections := branchNames.filterMap (fun n =>
      (c.getBranchProtection n).map (fun p => (n, p)))
    let observed := normalizeObserved r c.listCollaborators c.listTeams
      c.listHooks branchProtections c.getAllRulesets
    let desired := normalizeDesired cr
    { obs :=
      { resourceExists := true
        resourceUpToDate := aggregateB desired observed }
      err := none
      protectionCalls := branchNames }

/-- The mock client of the `NotUpToDate` case of `TestObserve`: the hook
and branch lists come back empty; no branch-protection getter is
installed (`MockGetBranchProtection` is absent there). -/
def notUpToDateClient : Client :=
  { getRepository := GetRepoResult.found githubRepository
    listCollaborators := githubCollaborators
    listTeams := githubTeams
    listHooks := []
    listBranches := []
    getBranchProtection := fun _ => none
    getAllRulesets := githubRuleset }

/-- The mock client of the `UpToDate` case of `TestObserve`. -/
def upToDateClient : Client :=
  { getRepository := GetRepoResult.found githubRepository
    listCollaborators := githubCollaborators
    listTeams := githubTeams
    listHooks := githubWebhooks
    listBranches := githubBranches
    getBranchProtection := fun b =>
      if b = bpr1branch then some githubProtectedBranch else none
    getAllRulesets := githubRuleset }

/-- The mock client of the `DoesNotExist` case of `TestObserve`: the
top-level get returns a 404 response. -/
def doesNotExistClient : Client :=
  { getRepository := GetRepoResult.notFound
    listCollaborators := []
    listTeams := []
    listHooks := []
    listBranches := []
    getBranchProtection := fun _ => none
    getAllRulesets := [] }

/-! ## Lemma layer -/

theorem cmpOpt_refl [DecidableEq α] (d : Option α) : cmpOpt d d = true := by
  cases d <;> simp [cmpOpt]

theorem cmpOptWith_refl (f : α → α → Bool) (hf : ∀ a, f a a = true)
    (d : Option α) : cmpOptWith f d d = true := by
  cases d <;> simp [cmpOptWith, hf]

theorem memB_iff {a : String} {xs : List String} : memB a xs = true ↔ a ∈ xs := by
  simp [memB, List.any_eq_true]

theorem setEq_refl (xs : List String) : setEq xs xs = true := by
  simp only [setEq, Bool.and_eq_true, List.all_eq_true]
  exact ⟨fun a ha => memB_iff.mpr ha, fun a ha => memB_iff.mpr ha⟩

theorem eqvPerm_refl (x : NormPerm) : eqvPerm x x = true := by
  simp [eqvPerm]

theorem eqvWebhook_refl (x : NormWebhook) : eqvWebhook x x = true := by
  simp [eqvWebhook, cmpOpt_refl, setEq_refl]

theorem eqvStatusChecks_refl (x : NormStatusChecks) : eqvStatusChecks x x = true := by
  simp [eqvStatusChecks, setEq_refl]

theorem eqvTriple_refl (x : NormTriple) : eqvTriple x x = true := by
  simp [eqvTriple, setEq_refl]

theorem eqvDismissal_refl (x : NormDismissal) : eqvDismissal x x = true := by
  simp [eqvDismissal, cmpOptWith_refl setEq setEq_refl]

theorem eqvReviews_refl (x : NormReviews) : eqvReviews x x = true := by
  simp [eqvReviews, cmpOptWith_refl eqvTriple eqvTriple_refl,
    cmpOptWith_refl eqvDismissal eqvDismissal_refl]

theorem eqvBPR_refl (x : NormBPR) : eqvBPR x x = true := by
  simp [eqvBPR, cmpOpt_refl, cmpOptWith_refl eqvStatusChecks eqvStatusChecks_refl,
    cmpOptWith_refl eqvTriple eqvTriple_refl, cmpOptWith_refl eqvReviews eqvReviews_refl]

theorem eqvActor_refl (x : NormActor) : eqvActor x x = true := by
  simp [eqvActor, cmpOpt_refl]

theorem eqvActors_refl (xs : List NormActor) : eqvActors xs xs = true := by
  induction xs with
  | nil => rfl
  | cons a t ih => simp [eqvActors, eqvActor_refl, ih]

theorem eqvConditions_refl (x : NormConditions) : eqvConditions x x = true := by
  simp [eqvConditions, setEq_refl]

theorem eqvRules_refl (x : NormRules) : eqvRules x x = true := by
  simp [eqvRules, cmpOpt_refl]

theorem eqvRuleset_refl (x : NormRuleset) : eqvRuleset x x = true := by
  simp [eqvRuleset, cmpOpt_refl, cmpOptWith_refl eqvConditions eqvConditions_refl,
    eqvActors_refl, cmpOptWith_refl eqvRules eqvRules_refl]

theorem eqvScalars_refl (x : NormRes) : eqvScalars x x = true := by
  simp [eqvScalars, cmpOpt_refl]

/-! ### Association map lemmas -/

/-- The keys of an association map. -/
def keysOf (m : List (String × α)) : List String := m.map Prod.fst

theorem lookupA_upsert_self (k : String) (v : α) (m : List (String × α)) :
    lookupA k (upsert k v m) = some v := by
  induction m with
  | nil => simp [upsert, lookupA]
  | cons kv m ih =>
    obtain ⟨k2, v2⟩ := kv
    by_cases h : k2 = k
    · simp [upsert, lookupA, h]
    · simp [upsert, lookupA, h, ih]

theorem keysOf_cons (a : String) (b : α) (m : List (String × α)) :
    keysOf ((a, b) :: m) = a :: keysOf m := rfl

theorem keysOf_upsert (k : String) (v : α) (m : List (String × α)) :
    keysOf (upsert k v m) =
      if k ∈ keysOf m then keysOf m else keysOf m ++ [k] := by
  induction m with
  | nil => simp [upsert, keysOf]
  | cons kv m ih =>
    obtain ⟨k2, v2⟩ := kv
    by_cases h : k2 = k
    · subst h
      simp [upsert, keysOf_cons]
    · simp only [upsert, if_neg h, keysOf_cons, ih]
      by_cases hm : k ∈ keysOf m
      · rw [if_pos hm, if_pos (List.mem_cons_of_mem _ hm)]
      · rw [if_neg hm, if_neg (by simp [List.mem_cons, hm, Ne.symm h])]
        simp

theorem nodup_keysOf_upsert {m : List (String × α)} (k : String) (v : α)
    (h : (keysOf m).Nodup) : (keysOf (upsert k v m)).Nodup := by
  rw [keysOf_upsert]
  by_cases hm : k ∈ keysOf m
  · simpa [hm] using h
  · simp [hm, List.nodup_append, h]

theorem nodup_keysOf_toMap (key : α → String) (xs : List α) :
    (keysOf (toMap key xs)).Nodup := by
  suffices h : ∀ m : List (String × α), (keysOf m).Nodup →
      (keysOf (xs.foldl (fun m x => upsert (key x) x m) m)).Nodup by
    exact h [] (by simp [keysOf])
  induction xs with
  | nil => intro m hm; simpa using hm
  | cons a t ih =>
    intro m hm
    simp only [List.foldl_cons]
    exact ih _ (nodup_keysOf_upsert _ _ hm)

theorem lookupA_eq_some_of_mem {m : List (String × α)} {k : String} {v : α}
    (h : (keysOf m).Nodup) (hm : (k, v) ∈ m) : lookupA k m = some v := by
  induction m with
  | nil => cases hm
  | cons kv m ih =>
    obtain ⟨a, b⟩ := kv
    rw [keysOf, List.map_cons, List.nodup_cons] at h
    rcases List.mem_cons.mp hm with heq | hmem
    · cases heq
      simp [lookupA]
    · by_cases hak : a = k
      · subst hak
        exact absurd (List.mem_map_of_mem Prod.fst hmem) h.1
      · simpa [lookupA, hak] using ih h.2 hmem

theorem mem_of_lookupA {m : List (String × α)} {k : String} {v : α}
    (h : lookupA k m = some v) : (k, v) ∈ m := by
  induction m with
  | nil => simp [lookupA] at h
  | cons kv m ih =>
    obtain ⟨a, b⟩ := kv
    by_cases hak : a = k
    · rw [lookupA, if_pos hak] at h
      cases hak
      cases Option.some.inj h
      exact List.mem_cons_self _ _
    · rw [lookupA, if_neg hak] at h
      exact List.mem_cons_of_mem _ (ih h)

theorem lookupA_eq_none_iff {m : List (String × α)} {k : String} :
    lookupA k m = none ↔ k ∉ keysOf m := by
  induction m with
  | nil => simp [lookupA, keysOf]
  | cons kv m ih =>
    obtain ⟨a, b⟩ := kv
    by_cases hak : a = k
    · simp [lookupA, hak, keysOf]
    · simp [lookupA, hak, keysOf, ih, Ne.symm hak]

/-! ### Idempotence of the aggregator -/

theorem collectionUpToDate_self (key : α → String) (eqv : α → α → Bool)
    (hr : ∀ x, eqv x x = true) (xs : List α) :
    collectionUpToDate key eqv xs xs = true := by
  have hnd := nodup_keysOf_toMap key xs
  have hlook : ∀ kv ∈ toMap key xs, lookupA kv.1 (toMap key xs) = some kv.2 := by
    intro kv hkv
    exact lookupA_eq_some_of_mem hnd (by simpa using hkv)
  simp only [collectionUpToDate, matchBuckets, Bool.and_eq_true, List.all_eq_true]
  refine ⟨⟨?_, ?_⟩, ?_⟩
  · have he : (toMap key xs).filter
        (fun kv => (lookupA kv.1 (toMap key xs)).isNone) = [] :=
      List.filter_eq_nil_iff.mpr (fun kv hkv => by simp [hlook kv hkv])
    simp [he]
  · have he : (toMap key xs).filter
        (fun kv => (lookupA kv.1 (toMap key xs)).isNone) = [] :=
      List.filter_eq_nil_iff.mpr (fun kv hkv => by simp [hlook kv hkv])
    simp [he]
  · intro pr hpr
    rcases List.mem_filterMap.mp hpr with ⟨kv, hkv, hmap⟩
    rw [hlook kv hkv] at hmap
    cases Option.some.inj hmap
    exact hr _

theorem aggregateB_self (x : NormRes) : aggregateB x x = true := by
  simp [aggregateB, eqvScalars_refl,
    collectionUpToDate_self NormPerm.key eqvPerm eqvPerm_refl,
    collectionUpToDate_self NormWebhook.url eqvWebhook eqvWebhook_refl,
    collectionUpToDate_self NormBPR.branch eqvBPR eqvBPR_refl,
    collectionUpToDate_self NormRuleset.name eqvRuleset eqvRuleset_refl]

/-! ### Permutation invariance -/

theorem all_perm {l l2 : List α} (p : α → Bool) (h : List.Perm l l2) :
    l.all p = l2.all p := by
  have hiff : (l.all p = true) ↔ (l2.all p = true) := by
    simp only [List.all_eq_true]
    exact ⟨fun hh a ha => hh a (h.mem_iff.mpr ha),
           fun hh a ha => hh a (h.mem_iff.mp ha)⟩
  cases hb : l.all p with
  | true => exact (hiff.mp hb).symm
  | false =>
    cases hb2 : l2.all p with
    | true => exact absurd (hiff.mpr hb2) (by simp [hb])
    | false => rfl

theorem isEmpty_perm {l l2 : List α} (h : List.Perm l l2) :
    l.isEmpty = l2.isEmpty := by
  cases l with
  | nil => rw [h.nil_eq.symm]
  | cons a t =>
    cases l2 with
    | nil => exact absurd h.symm.nil_eq (by simp)
    | cons b t2 => rfl

theorem lookupA_perm {m m2 : List (String × α)} (hnd : (keysOf m).Nodup)
    (h : List.Perm m m2) (k : String) : lookupA k m = lookupA k m2 := by
  have hnd2 : (keysOf m2).Nodup := ((h.map Prod.fst).nodup_iff).mp hnd
  cases hl : lookupA k m with
  | some v =>
    exact (lookupA_eq_some_of_mem hnd2 (h.mem_iff.mp (mem_of_lookupA hl))).symm
  | none =>
    have hk : k ∉ keysOf m2 :=
      fun hin => lookupA_eq_none_iff.mp hl ((h.map Prod.fst).mem_iff.mpr hin)
    exact (lookupA_eq_none_iff.mpr hk).symm

theorem upsert_eq_append {m : List (String × α)} {k : String} (v : α)
    (h : k ∉ keysOf m) : upsert k v m = m ++ [(k, v)] := by
  induction m with
  | nil => rfl
  | cons kv m ih =>
    obtain ⟨a, b⟩ := kv
    rw [keysOf_cons, List.mem_cons] at h
    push_neg at h
    simp only [upsert, if_neg (Ne.symm h.1), List.cons_append]
    rw [ih h.2]

theorem foldl_upsert_fresh (key : α → String) (xs : List α) :
    ∀ m : List (String × α), (xs.map key).Nodup →
      (∀ x ∈ xs, key x ∉ keysOf m) →
      xs.foldl (fun m x => upsert (key x) x m) m =
        m ++ xs.map (fun x => (key x, x)) := by
  induction xs with
  | nil => intro m _ _; simp
  | cons a t ih =>
    intro m hnd hf
    rw [List.map_cons, List.nodup_cons] at hnd
    simp only [List.foldl_cons, List.map_cons]
    rw [upsert_eq_append a (hf a (List.mem_cons_self a t))]
    rw [ih (m ++ [(key a, a)]) hnd.2 ?_]
    · simp
    · intro x hx
      have h1 : key x ∉ keysOf m := hf x (List.mem_cons_of_mem a hx)
      have h2 : key x ≠ key a := by
        intro he
        exact hnd.1 (he ▸ List.mem_map_of_mem key hx)
      have hk : keysOf (m ++ [(key a, a)]) = keysOf m ++ [key a] := by
        simp [keysOf]
      rw [hk]
      intro hmem
      rcases List.mem_append.mp hmem with hm1 | hm2
      · exact h1 hm1
      · exact h2 (by simpa using hm2)

theorem toMap_eq_of_nodup {key : α → String} {xs : List α}
    (hnd : (xs.map key).Nodup) :
    toMap key xs = xs.map (fun x => (key x, x)) := by
  have h := foldl_upsert_fresh key xs [] hnd (by simp [keysOf])
  simpa [toMap] using h

theorem toMap_perm {key : α → String} {xs ys : List α}
    (hnd : (xs.map key).Nodup) (h : List.Perm xs ys) :
    List.Perm (toMap key xs) (toMap key ys) := by
  have hnd2 : (ys.map key).Nodup := ((h.map key).nodup_iff).mp hnd
  rw [toMap_eq_of_nodup hnd, toMap_eq_of_nodup hnd2]
  exact h.map _

theorem collectionUpToDate_perm (key : α → String) (eqv : α → α → Bool)
    {ds ds2 os os2 : List α}
    (hd : (ds.map key).Nodup) (ho : (os.map key).Nodup)
    (h1 : List.Perm ds ds2) (h2 : List.Perm os os2) :
    collectionUpToDate key eqv ds os = collectionUpToDate key eqv ds2 os2 := by
  have hdm : List.Perm (toMap key ds) (toMap key ds2) := toMap_perm hd h1
  have hom : List.Perm (toMap key os) (toMap key os2) := toMap_perm ho h2
  have hndd := nodup_keysOf_toMap key ds
  have hndo := nodup_keysOf_toMap key os
  have hlookD : ∀ k, lookupA k (toMap key ds) = lookupA k (toMap key ds2) :=
    fun k => lookupA_perm hndd hdm k
  have hlookO : ∀ k, lookupA k (toMap key os) = lookupA k (toMap key os2) :=
    fun k => lookupA_perm hndo hom k
  have e1 : (fun kv : String × α => (lookupA kv.1 (toMap key os2)).isNone)
      = (fun kv => (lookupA kv.1 (toMap key os)).isNone) :=
    funext fun kv => by rw [hlookO]
  have e2 : (fun kv : String × α => (lookupA kv.1 (toMap key ds2)).isNone)
      = (fun kv => (lookupA kv.1 (toMap key ds)).isNone) :=
    funext fun kv => by rw [hlookD]
  have e3 : (fun kv : String × α =>
        Option.map (fun o => (kv.2, o)) (lookupA kv.1 (toMap key os2)))
      = (fun kv => Option.map (fun o => (kv.2, o)) (lookupA kv.1 (toMap key os))) :=
    funext fun kv => by rw [hlookO]
  simp only [collectionUpToDate, matchBuckets]
  rw [e1, e2, e3]
  rw [isEmpty_perm ((hdm.filter _).map _), isEmpty_perm ((hom.filter _).map _),
    all_perm _ (hdm.filterMap _)]

/-- Component-wise permutation of two normalized resources: equal scalar
fields and permuted sub-resource collections. -/
def resPerm (x y : NormRes) : Prop :=
  x.description = y.description ∧ x.archived = y.archived
  ∧ x.priv = y.priv ∧ x.isTemplate = y.isTemplate
  ∧ List.Perm x.users y.users ∧ List.Perm x.teams y.teams
  ∧ List.Perm x.webhooks y.webhooks ∧ List.Perm x.bprs y.bprs
  ∧ List.Perm x.rulesets y.rulesets

instance (x y : NormRes) : Decidable (resPerm x y) := by
  unfold resPerm
  infer_instance

/-- The spec's schema invariant: at most one entry per normalized identity
key within each keyed collection. -/
def nodupKeysRes (x : NormRes) : Prop :=
  (x.users.map NormPerm.key).Nodup ∧ (x.teams.map NormPerm.key).Nodup
  ∧ (x.webhooks.map NormWebhook.url).Nodup ∧ (x.bprs.map NormBPR.branch).Nodup
  ∧ (x.rulesets.map NormRuleset.name).Nodup

instance (x : NormRes) : Decidable (nodupKeysRes x) := by
  unfold nodupKeysRes
  infer_instance

theorem aggregate_perm {d d2 o o2 : NormRes}
    (hp : resPerm d d2) (hq : resPerm o o2)
    (hd : nodupKeysRes d) (ho : nodupKeysRes o) :
    aggregate d o = aggregate d2 o2 := by
  obtain ⟨e1, e2, e3, e4, pu, pt, pw, pb, pr⟩ := hp
  obtain ⟨f1, f2, f3, f4, qu, qt, qw, qb, qr⟩ := hq
  obtain ⟨du, dt, dw, db, dr⟩ := hd
  obtain ⟨ou, ot, ow, ob, orr⟩ := ho
  have hs : eqvScalars d o = eqvScalars d2 o2 := by
    simp only [eqvScalars, e1, e2, e3, e4, f1, f2, f3, f4]
  have hb : aggregateB d o = aggregateB d2 o2 := by
    simp only [aggregateB, hs,
      collectionUpToDate_perm NormPerm.key eqvPerm du ou pu qu,
      collectionUpToDate_perm NormPerm.key eqvPerm dt ot pt qt,
      collectionUpToDate_perm NormWebhook.url eqvWebhook dw ow pw qw,
      collectionUpToDate_perm NormBPR.branch eqvBPR db ob pb qb,
      collectionUpToDate_perm NormRuleset.name eqvRuleset dr orr pr qr]
  simp only [aggregate, hb]

theorem setEq_perm {xs xs2 ys ys2 : List String}
    (h1 : List.Perm xs xs2) (h2 : List.Perm ys ys2) :
    setEq xs ys = setEq xs2 ys2 := by
  have m1 : (fun a => memB a ys) = (fun a => memB a ys2) := by
    funext a
    cases hb : memB a ys with
    | true => exact (memB_iff.mpr (h2.mem_iff.mp (memB_iff.mp hb))).symm
    | false =>
      cases hb2 : memB a ys2 with
      | true => exact absurd (memB_iff.mpr (h2.mem_iff.mpr (memB_iff.mp hb2))) (by simp [hb])
      | false => rfl
  have m2 : (fun a => memB a xs) = (fun a => memB a xs2) := by
    funext a
    cases hb : memB a xs with
    | true => exact (memB_iff.mpr (h1.mem_iff.mp (memB_iff.mp hb))).symm
    | false =>
      cases hb2 : memB a xs2 with
      | true => exact absurd (memB_iff.mpr (h1.mem_iff.mpr (memB_iff.mp hb2))) (by simp [hb])
      | false => rfl
  simp only [setEq]
  rw [m1, m2, all_perm _ h1, all_perm _ h2]

/-! ## Claims -/

/-- A collection of identity keys holds a duplicate under the normalized
(case-folded) identity. -/
def hasDupKey : List String → Bool
  | [] => false
  | k :: ks => memB (lowerKey k) (ks.map lowerKey) || hasDupKey ks

/-- Claim C1, counterexample: the desired fixture spec carries a duplicate
user identity key (the test file's `user1` and `user2` are the same
login), yet Observe on it surfaces no error and returns the UpToDate
verdict, so a duplicate identity key is not rejected as Malformed-Input
and does reach the Differ. -/
theorem C1_counterexample :
    hasDupKey ((repository []).spec.forProvider.permissions.users.map
      v1alpha1.RepositoryUser.user) = true
    ∧ (observe upToDateClient (repository [])).err = none
    ∧ (observe upToDateClient (repository [])).obs.resourceUpToDate = true := by
  refine ⟨by decide, by decide, by decide⟩

/-- Claim C1, amended: a duplicate identity key within a collection is not
rejected; entries sharing a normalized key collapse into one keyed-map
entry with the last occurrence winning, reconciliation proceeds, and
Observe on such a spec can return the UpToDate verdict with no error. -/
theorem C1_duplicates_not_rejected :
    (∀ (ps : List NormPerm) (p : NormPerm),
      lookupA p.key (toMap NormPerm.key (ps ++ [p])) = some p)
    ∧ (observe upToDateClient (repository [])).err = none
    ∧ (observe upToDateClient (repository [])).obs.resourceUpToDate = true := by
  refine ⟨?_, by decide, by decide⟩
  intro ps p
  have h : toMap NormPerm.key (ps ++ [p])
      = upsert p.key p (toMap NormPerm.key ps) := by
    simp [toMap, List.foldl_append]
  rw [h, lookupA_upsert_self]

/-- Claim C2: identity matching is case-insensitive — a desired and an
observed entry whose identity keys differ only in letter case land in the
matched-pairs bucket with empty toCreate and toDelete buckets, and the
fixture whose desired identity keys are uppercased versions of the
observed ones yields the UpToDate verdict. -/
theorem C2_case_insensitive_identity :
    (∀ (du : v1alpha1.RepositoryUser) (gu : github.User),
      lowerKey du.user = lowerKey (gu.login.getD "") →
      matchBuckets (toMap NormPerm.key [normUserD du])
          (toMap NormPerm.key [normUserO gu])
        = ([(normUserD du, normUserO gu)], [], []))
    ∧ (∀ (dt : v1alpha1.RepositoryTeam) (gt : github.Team),
      lowerKey dt.team = lowerKey (gt.slug.getD "") →
      matchBuckets (toMap NormPerm.key [normTeamD dt])
          (toMap NormPerm.key [normTeamO gt])
        = ([(normTeamD dt, normTeamO gt)], [], []))
    ∧ (observe upToDateClient (repository [])).obs.resourceUpToDate = true := by
  refine ⟨?_, ?_, by decide⟩
  · intro du gu h
    have hk : (normUserO gu).key = (normUserD du).key := by
      simp [normUserO, normUserD, h]
    simp [matchBuckets, toMap, upsert, lookupA, hk]
  · intro dt gt h
    have hk : (normTeamO gt).key = (normTeamD dt).key := by
      simp [normTeamO, normTeamD, h]
    simp [matchBuckets, toMap, upsert, lookupA, hk]

/-- Claim C2, witness: the spec's own example pair, desired key
`User1` against observed key `user1`. -/
theorem C2_witness :
    matchBuckets
      (toMap NormPerm.key [normUserD { user := "User1", role := "admin" }])
      (toMap NormPerm.key
        [normUserO { login := some "user1", permissions := [("admin", true)] }])
    = ([(normUserD { user := "User1", role := "admin" },
         normUserO { login := some "user1", permissions := [("admin", true)] })],
       [], []) :=
  C2_case_insensitive_identity.1 _ _ (by decide)

/-- Claim C3: optional fields are tri-state — a desired unset optional
field is equivalent to any observed value, a desired explicit false is
changed against an observed true, the fixture desired resource leaves
every top-level scalar unset, and it is UpToDate against an observed
repository reporting concrete values for them. -/
theorem C3_unset_vs_false :
    (∀ o : Option Bool, cmpOpt (none : Option Bool) o = true)
    ∧ cmpOpt (some false) (some true) = false
    ∧ (∀ (o : NormRes) (us ts : List NormPerm) (ws : List NormWebhook)
        (bs : List NormBPR) (rs : List NormRuleset),
        eqvScalars
          { description := none, archived := none, priv := none,
            isTemplate := none, users := us, teams := ts, webhooks := ws,
            bprs := bs, rulesets := rs } o = true)
    ∧ ((repository []).spec.forProvider.description = none
       ∧ (repository []).spec.forProvider.archived = none
       ∧ (repository []).spec.forProvider.priv = none
       ∧ (repository []).spec.forProvider.isTemplate = none)
    ∧ (observe upToDateClient (repository [])).obs.resourceUpToDate = true := by
  refine ⟨fun o => rfl, by decide, fun o us ts ws bs rs => rfl, by decide, by decide⟩

/-- Claim C4: the Normalizer translates the remote's heterogeneous typed
rule list into the desired side's named boolean shape — the fixture's six
typed entries become the six named toggles all true, the desired ruleset
with those toggles set true is equivalent to the observed ruleset, and
the fixture yields the UpToDate verdict. -/
theorem C4_ruleset_rule_translation :
    githubRuleset.map (fun r => (normRulesetO r).rules)
      = [some { creation := some true,
                deletion := some true,
                update := some true,
                requiredLinearHistory := some true,
                requiredSignatures := some true,
                nonFastForward := some true }]
    ∧ collectionUpToDate NormRuleset.name eqvRuleset
        ((repository []).spec.forProvider.repositoryRules.map normRulesetD)
        (githubRuleset.map normRulesetO) = true
    ∧ (observe upToDateClient (repository [])).obs.resourceUpToDate = true := by
  refine ⟨by decide, by decide, by decide⟩

/-- Claim C5: drift is detected — with the desired spec assigning team
role admin to team2 while the observed state reports pull for it, and
observed webhooks and branches empty while the desired spec declares
them, Observe returns resource-exists true, up-to-date false and no
error. -/
theorem C5_drift_detected :
    observe notUpToDateClient (repository [withTeamPermission])
      = { obs := { resourceExists := true, resourceUpToDate := false },
          err := none, protectionCalls := [] }
    ∧ (repository [withTeamPermission]).spec.forProvider.permissions.teams
      = [ { team := toUpperStr team1, role := team1Role },
          { team := toUpperStr team2, role := team1Role } ]
    ∧ githubTeams.map normTeamO
      = [ { key := team1, role := team1Role },
          { key := team2, role := team2Role } ] := by
  refine ⟨by decide, by decide, by decide⟩

/-- Claim C6: when the top-level get-resource fetch reports NotFound,
Observe skips all sub-resource fetching and diffing and returns
resource-exists false, up-to-date false and no error. -/
theorem C6_absent_resource (c : Client) (cr : v1alpha1.Repository)
    (h : c.getRepository = GetRepoResult.notFound) :
    observe c cr
      = { obs := { resourceExists := false, resourceUpToDate := false },
          err := none, protectionCalls := [] } := by
  simp [observe, h]

/-- Claim C6, witness: the `DoesNotExist` mock client of `TestObserve`. -/
theorem C6_witness :
    doesNotExistClient.getRepository = GetRepoResult.notFound
    ∧ observe doesNotExistClient (repository [])
      = { obs := { resourceExists := false, resourceUpToDate := false },
          err := none, protectionCalls := [] } :=
  ⟨rfl, C6_absent_resource doesNotExistClient (repository []) rfl⟩

/-- Claim C7: the aggregator is idempotent — aggregating any normalized
resource against itself yields the UpToDate verdict. -/
theorem C7_aggregate_idempotent (x : NormRes) : aggregate x x = Verdict.UpToDate := by
  simp [aggregate, aggregateB_self]

/-- Claim C8, counterexample: with a duplicate normalized identity key in
the desired user collection, permuting that collection's element order
flips the aggregator's verdict (the keyed-map collapse keeps the last
occurrence), so set-order independence fails for collections violating
the one-entry-per-key invariant. -/
theorem C8_counterexample :
    List.Perm
      ([ { key := "u", role := "admin" },
         { key := "u", role := "pull" } ] : List NormPerm)
      [ { key := "u", role := "pull" },
        { key := "u", role := "admin" } ]
    ∧ aggregate
        { description := none, archived := none, priv := none,
          isTemplate := none,
          users := [ { key := "u", role := "admin" },
                     { key := "u", role := "pull" } ],
          teams := [], webhooks := [], bprs := [], rulesets := [] }
        { description := none, archived := none, priv := none,
          isTemplate := none,
          users := [ { key := "u", role := "pull" } ],
          teams := [], webhooks := [], bprs := [], rulesets := [] }
      = Verdict.UpToDate
    ∧ aggregate
        { description := none, archived := none, priv := none,
          isTemplate := none,
          users := [ { key := "u", role := "pull" },
                     { key := "u", role := "admin" } ],
          teams := [], webhooks := [], bprs := [], rulesets := [] }
        { description := none, archived := none, priv := none,
          isTemplate := none,
          users := [ { key := "u", role := "pull" } ],
          teams := [], webhooks := [], bprs := [], rulesets := [] }
      = Verdict.NotUpToDate := by
  refine ⟨by decide, by decide, by decide⟩

/-- Claim C8, amended: for inputs satisfying the schema invariant of at
most one entry per normalized identity key, permuting the element order
of any keyed collection on either side leaves the aggregator's verdict
unchanged, and permuting semantically-unordered string sub-collections
inside attributes leaves the set comparison unchanged. -/
theorem C8_order_independence :
    (∀ d d2 o o2 : NormRes, resPerm d d2 → resPerm o o2 →
      nodupKeysRes d → nodupKeysRes o → aggregate d o = aggregate d2 o2)
    ∧ (∀ xs xs2 ys ys2 : List String, List.Perm xs xs2 → List.Perm ys ys2 →
      setEq xs ys = setEq xs2 ys2) :=
  ⟨fun _ _ _ _ hp hq hd ho => aggregate_perm hp hq hd ho,
   fun _ _ _ _ h1 h2 => setEq_perm h1 h2⟩

/-- Claim C8, witness: concrete duplicate-free collections, permuted on
both sides. -/
theorem C8_witness :
    aggregate
      { description := none, archived := none, priv := none,
        isTemplate := none,
        users := [ { key := "a", role := "admin" },
                   { key := "b", role := "pull" } ],
        teams := [], webhooks := [], bprs := [], rulesets := [] }
      { description := none, archived := none, priv := none,
        isTemplate := none,
        users := [ { key := "b", role := "pull" },
                   { key := "a", role := "admin" } ],
        teams := [], webhooks := [], bprs := [], rulesets := [] }
    = aggregate
      { description := none, archived := none, priv := none,
        isTemplate := none,
        users := [ { key := "b", role := "pull" },
                   { key := "a", role := "admin" } ],
        teams := [], webhooks := [], bprs := [], rulesets := [] }
      { description := none, archived := none, priv := none,
        isTemplate := none,
        users := [ { key := "a", role := "admin" },
                   { key := "b", role := "pull" } ],
        teams := [], webhooks := [], bprs := [], rulesets := [] }
    ∧ setEq ["x", "y"] ["x"] = setEq ["y", "x"] ["x"] :=
  ⟨C8_order_independence.1 _ _ _ _ (by decide) (by decide) (by decide) (by decide),
   C8_order_independence.2 _ _ _ _ (by decide) (by decide)⟩

/-- Claim C9: a desired webhook with insecure-transport explicitly false
compares equivalent to an observed webhook whose insecure-SSL
configuration value is the string "0" — the Normalizer collapses the
string encoding into the boolean shape, so the differing native
encodings never by themselves produce a NotUpToDate verdict; the
fixture with exactly this pairing is UpToDate. -/
theorem C9_insecure_ssl_encoding :
    parseInsecureSsl webhook1InsecureSslStr = some webhook1InsecureSsl
    ∧ (∀ (u ct : String) (evs : List String) (act : Option Bool),
        eqvWebhook
          (normWebhookD
            { url := u, contentType := ct, events := evs,
              insecureSsl := some false, active := act })
          (normHookO
            { config := some
                { url := some u, contentType := some ct,
                  insecureSSL := some webhook1InsecureSslStr },
              events := evs, active := act })
          = true)
    ∧ (observe upToDateClient (repository [])).obs.resourceUpToDate = true := by
  refine ⟨by decide, ?_, by decide⟩
  intro u ct evs act
  simp [eqvWebhook, normWebhookD, normHookO, webhook1InsecureSslStr,
    parseInsecureSsl, cmpOpt_refl, setEq_refl]

/-- Claim C10: a per-branch protection fetch is issued only for branches
returned by list-branches — with an empty branch list Observe makes no
protection call at all and its result does not depend on the installed
protection getter, even though the desired spec declares a
branch-protection rule. -/
theorem C10_no_protection_fetch_without_branches (c : Client)
    (cr : v1alpha1.Repository) (g : String → Option github.Protection)
    (h : c.listBranches = []) :
    (observe c cr).protectionCalls = []
    ∧ observe { c with getBranchProtection := g } cr = observe c cr := by
  cases hgr : c.getRepository with
  | notFound => simp [observe, hgr]
  | failed e => simp [observe, hgr]
  | found r => simp [observe, hgr, h]

/-- Claim C10, witness: the `NotUpToDate` mock client, whose branch list
is empty while the desired spec declares a branch-protection rule. -/
theorem C10_witness :
    (observe notUpToDateClient (repository [withTeamPermission])).protectionCalls = []
    ∧ observe
        { notUpToDateClient with
          getBranchProtection := fun _ => some githubProtectedBranch }
        (repository [withTeamPermission])
      = observe notUpToDateClient (repository [withTeamPermission]) :=
  C10_no_protection_fetch_without_branches notUpToDateClient
    (repository [withTeamPermission]) (fun _ => some githubProtectedBranch) rfl
